import Mathlib

/-! Verification of the monitoring and alarm-evaluation engine of the
Crypto_Alarm repository, shallowly embedded from src/app.js.

Prices, percentages and 24h-change values are rationals; timestamps and
durations are integers, in milliseconds since the epoch, mirroring the
millisecond clock of the source.  Maps keyed by ticker or alarm id are
association lists that keep insertion order, mirroring the insertion-ordered
maps of the source; setting an existing key replaces its value in place and
setting a fresh key appends at the end.  Presentation-only fields of the
source records, such as display names and provider coin ids, are omitted;
every field read or written by the evaluation logic is kept under its source
name. -/

namespace CryptoAlarm

/-- A single price sample, as pushed into the per-ticker history array. -/
structure PricePoint where
  price : ℚ
  timestamp : ℤ
deriving DecidableEq

/-- A tracked asset record, restricted to the fields the engine reads and
writes: current price, 24h change, running extrema, last-update time. -/
structure Asset where
  ticker : String
  price : ℚ
  change24h : ℚ
  maxPrice : ℚ
  minPrice : ℚ
  lastUpdate : ℤ
deriving DecidableEq

/-- Alarm direction parameter, the strings up, down and any of the source. -/
inductive Direction where
  | up
  | down
  | any
deriving DecidableEq

/-- Extreme-alarm variant, the strings max and min of the source. -/
inductive ExtremeType where
  | max
  | min
deriving DecidableEq

/-- Timeframe-alarm unit, the strings minutes, hours, days and since_start
of the source. -/
inductive TimeUnit where
  | minutes
  | hours
  | days
  | since_start
deriving DecidableEq

/-- Kind-specific alarm parameters: the type field of the source alarm
object together with the parameters belonging to that type. -/
inductive AlarmKind where
  | target (targetPrice : ℚ) (direction : Direction)
  | extreme (percentage : ℚ) (extremeType : ExtremeType)
  | timeframe (percentage : ℚ) (direction : Direction)
      (timeValue : Option ℤ) (timeUnit : TimeUnit)
deriving DecidableEq

/-- One user-configured alarm.  Option fields model fields that may be null
or absent on the source object; timeframeMinutes is the legacy field shape
still accepted by getTimeframeMs. -/
structure Alarm where
  id : String
  ticker : String
  kind : AlarmKind
  triggered : Bool
  createdAt : ℤ
  triggeredAt : Option ℤ := none
  lastResetTime : Option ℤ := none
  resetUntil : Option ℤ := none
  resetting : Bool := false
  timeframeMinutes : Option ℤ := none
deriving DecidableEq

/-- The pair of values a successful price fetch yields. -/
structure PriceData where
  price : ℚ
  change24h : ℚ
deriving DecidableEq

/-- The notification emitted when an alarm fires: alarm id, ticker and the
direction computed by checkAlarms.  The formatted message text is
presentation and is not modelled. -/
structure TriggerEvent where
  alarmId : String
  ticker : String
  direction : Direction
deriving DecidableEq

/-- Lookup in an insertion-ordered association list, as Map.get. -/
def mapGet {α : Type} (m : List (String × α)) (k : String) : Option α :=
  (m.find? (fun p => decide (p.1 = k))).map (fun p => p.2)

/-- Update in an insertion-ordered association list, as Map.set: an existing
key is overwritten in place, a fresh key is appended at the end.  A Map
holds each key at most once, so overwriting the first occurrence is the
source semantics. -/
def mapSet {α : Type} (m : List (String × α)) (k : String) (v : α) :
    List (String × α) :=
  match m with
  | [] => [(k, v)]
  | p :: rest => if p.1 = k then (k, v) :: rest else p :: mapSet rest k v

/-- The floating-point crossing tolerance of checkTargetAlarm:
eps is the larger of 1e-8 and the absolute target price times 1e-6. -/
def eps (targetPrice : ℚ) : ℚ :=
  max (1 / 10 ^ 8) (|targetPrice| * (1 / 10 ^ 6))

/-- checkTargetAlarm of src/app.js: with fewer than two history points it
compares the current price against the target directly with tolerance;
otherwise it is a crossing test between the second-to-last history price and
the current price. -/
def checkTargetAlarm (targetPrice : ℚ) (direction : Direction) (asset : Asset)
    (history : List PricePoint) : Bool :=
  let currentPrice := asset.price
  let e := eps targetPrice
  if history.length < 2 then
    match direction with
    | .up => decide (targetPrice ≤ currentPrice + e)
    | .down => decide (currentPrice - e ≤ targetPrice)
    | .any => decide (|currentPrice - targetPrice| ≤ e)
  else
    let previousPrice :=
      (history.getD (history.length - 2) { price := 0, timestamp := 0 }).price
    match direction with
    | .up => decide (previousPrice < targetPrice ∧ targetPrice ≤ currentPrice + e)
    | .down => decide (targetPrice < previousPrice ∧ currentPrice - e ≤ targetPrice)
    | .any =>
      decide ((previousPrice < targetPrice ∧ targetPrice ≤ currentPrice + e) ∨
        (targetPrice < previousPrice ∧ currentPrice - e ≤ targetPrice))

/-- checkExtremeAlarm of src/app.js: percent retracement from the recorded
extremum compared against the configured percentage. -/
def checkExtremeAlarm (percentage : ℚ) (extremeType : ExtremeType)
    (asset : Asset) : Bool :=
  let currentPrice := asset.price
  match extremeType with
  | .max =>
    let maxPrice := asset.maxPrice
    let percentDown := (maxPrice - currentPrice) / maxPrice * 100
    decide (percentage ≤ percentDown)
  | .min =>
    let minPrice := asset.minPrice
    let percentUp := (currentPrice - minPrice) / minPrice * 100
    decide (percentage ≤ percentUp)

/-- getTimeframeMs of src/app.js: the window length in milliseconds, with
the legacy timeframeMinutes field taking precedence, and none for the
since_start sentinel. -/
def getTimeframeMs (timeframeMinutes : Option ℤ) (timeValue : Option ℤ)
    (timeUnit : TimeUnit) : Option ℤ :=
  match timeframeMinutes with
  | some m => some (m * 60 * 1000)
  | none =>
    match timeUnit with
    | .since_start => none
    | .minutes => some (timeValue.getD 0 * 60 * 1000)
    | .hours => some (timeValue.getD 0 * 60 * 60 * 1000)
    | .days => some (timeValue.getD 0 * 24 * 60 * 60 * 1000)

/-- The idiom x or-else d of the source applied to a stored time value:
a null, absent or zero time is replaced by the default, since 0 is falsy. -/
def truthyOr (o : Option ℤ) (d : ℤ) : ℤ :=
  match o with
  | some t => if t = 0 then d else t
  | none => d

/-- The window start time computed by checkTimeframeAlarm: the since-start
anchor lastResetTime or createdAt, or the current time minus the window. -/
def timeframeStartTime (timeValue : Option ℤ) (timeUnit : TimeUnit)
    (timeframeMinutes lastResetTime : Option ℤ) (createdAt : ℤ)
    (currentTime : ℤ) : ℤ :=
  if timeUnit = TimeUnit.since_start then
    truthyOr lastResetTime createdAt
  else
    currentTime - (getTimeframeMs timeframeMinutes timeValue timeUnit).getD 0

/-- The relevantHistory filter of checkTimeframeAlarm: every history point
with timestamp at or after the window start, in stored order. -/
def relevantHistory (history : List PricePoint) (startTime : ℤ) :
    List PricePoint :=
  history.filter (fun h => decide (startTime ≤ h.timestamp))

/-- checkTimeframeAlarm of src/app.js.  It returns the percent change when
the alarm condition holds and none otherwise; none is also returned when the
stored history has fewer than two points or the window holds no points. -/
def checkTimeframeAlarm (percentage : ℚ) (direction : Direction)
    (timeValue : Option ℤ) (timeUnit : TimeUnit)
    (timeframeMinutes lastResetTime : Option ℤ) (createdAt : ℤ)
    (asset : Asset) (history : List PricePoint) (currentTime : ℤ) :
    Option ℚ :=
  if history.length < 2 then none
  else
    let startTime :=
      timeframeStartTime timeValue timeUnit timeframeMinutes lastResetTime
        createdAt currentTime
    match relevantHistory history startTime with
    | [] => none
    | h0 :: _ =>
      let startPrice := h0.price
      let currentPrice := asset.price
      let percentChange := (currentPrice - startPrice) / startPrice * 100
      let fired :=
        match direction with
        | .up => decide (percentage ≤ percentChange)
        | .down => decide (percentChange ≤ -percentage)
        | .any => decide (percentage ≤ |percentChange|)
      if fired then some percentChange else none

/-- Whether an alarm is the self-resetting since-start variant, the test
the trigger branch of checkAlarms performs on type and timeUnit. -/
def isSinceStartAlarm (alarm : Alarm) : Bool :=
  match alarm.kind with
  | .timeframe _ _ _ timeUnit => decide (timeUnit = TimeUnit.since_start)
  | _ => false

/-- The body of the per-alarm loop of checkAlarms in src/app.js, for one
alarm: a triggered alarm or an alarm whose asset is missing is skipped;
otherwise the evaluator of its kind runs and, on firing, the alarm is
latched (or, for the since-start variant, its anchor is reset) and a
TriggerEvent is emitted with the direction the source computes. -/
def checkAlarmsStep (alarm : Alarm) (getAsset : String → Option Asset)
    (getHistory : String → Option (List PricePoint)) (now : ℤ) :
    Alarm × Option TriggerEvent :=
  if alarm.triggered then (alarm, none)
  else
    match getAsset alarm.ticker with
    | none => (alarm, none)
    | some asset =>
      match alarm.kind with
      | .target targetPrice direction =>
        if checkTargetAlarm targetPrice direction asset
            ((getHistory asset.ticker).getD []) then
          let dir :=
            if direction = Direction.up ∨ targetPrice ≤ asset.price then
              Direction.up
            else Direction.down
          ({ alarm with triggered := true, triggeredAt := some now },
            some { alarmId := alarm.id, ticker := alarm.ticker, direction := dir })
        else (alarm, none)
      | .extreme percentage extremeType =>
        if checkExtremeAlarm percentage extremeType asset then
          let dir :=
            match extremeType with
            | .max => Direction.down
            | .min => Direction.up
          ({ alarm with triggered := true, triggeredAt := some now },
            some { alarmId := alarm.id, ticker := alarm.ticker, direction := dir })
        else (alarm, none)
      | .timeframe percentage direction timeValue timeUnit =>
        match checkTimeframeAlarm percentage direction timeValue timeUnit
            alarm.timeframeMinutes alarm.lastResetTime alarm.createdAt asset
            ((getHistory asset.ticker).getD []) now with
        | none => (alarm, none)
        | some priceMovement =>
          let dir := if 0 < priceMovement then Direction.up else Direction.down
          if timeUnit = TimeUnit.since_start then
            ({ alarm with lastResetTime := some now },
              some { alarmId := alarm.id, ticker := alarm.ticker, direction := dir })
          else
            ({ alarm with triggered := true, triggeredAt := some now },
              some { alarmId := alarm.id, ticker := alarm.ticker, direction := dir })

/-- Iterated evaluation of one alarm over a sequence of ticks, each tick
supplying the asset lookup, the history lookup and the clock it sees;
the emitted events of all ticks are concatenated in order. -/
def evalSteps (alarm : Alarm)
    (ticks : List ((String → Option Asset) ×
      (String → Option (List PricePoint)) × ℤ)) :
    Alarm × List TriggerEvent :=
  match ticks with
  | [] => (alarm, [])
  | c :: cs =>
    let r := checkAlarmsStep alarm c.1 c.2.1 c.2.2
    let rest := evalSteps r.1 cs
    (rest.1, r.2.toList ++ rest.2)

/-- The whole mutable state the scheduler owns: the asset map, the price
history map and the alarm map of src/app.js. -/
structure AppState where
  assets : List (String × Asset)
  priceHistory : List (String × List PricePoint)
  alarms : List (String × Alarm)
deriving DecidableEq

/-- The history append-and-prune step inlined in updateAllPrices of
src/app.js: the history of the ticker (an absent entry reads as the empty
array) gets the new point stamped now pushed at the end, then only points
with timestamp strictly greater than now minus 24 hours are kept, and the
result is stored under the ticker. -/
def appendPricePoint (store : List (String × List PricePoint))
    (ticker : String) (price : ℚ) (now : ℤ) :
    List (String × List PricePoint) :=
  let history := (mapGet store ticker).getD []
  let history := history ++ [{ price := price, timestamp := now }]
  let oneDayAgo := now - 24 * 60 * 60 * 1000
  let filteredHistory := history.filter (fun h => decide (oneDayAgo < h.timestamp))
  mapSet store ticker filteredHistory

/-- The asset-field update of updateAllPrices on a successful fetch:
price, change24h and lastUpdate are overwritten and the running extrema are
widened when the new price escapes them. -/
def updateAssetPrice (asset : Asset) (priceData : PriceData) (now : ℤ) :
    Asset :=
  { asset with
    price := priceData.price
    change24h := priceData.change24h
    lastUpdate := now
    maxPrice := if asset.maxPrice < priceData.price then priceData.price
      else asset.maxPrice
    minPrice := if priceData.price < asset.minPrice then priceData.price
      else asset.minPrice }

/-- The asset record addAsset of src/app.js builds after a successful first
fetch, restricted to the modelled fields: price, extrema and lastUpdate all
start from the first fetched price. -/
def newAsset (ticker : String) (priceData : PriceData) (now : ℤ) : Asset :=
  { ticker := ticker
    price := priceData.price
    change24h := priceData.change24h
    maxPrice := priceData.price
    minPrice := priceData.price
    lastUpdate := now }

/-- updateAllPrices of src/app.js: every tracked asset is fetched (the
fetch outcome per ticker is a parameter, none standing for the null the
source fetch helpers return on any failure); a failed asset is left exactly
as it was, a fetched asset has its fields updated and its history appended
and pruned.  The per-asset updates touch disjoint keys, so the sequential
fold mirrors the concurrent source loop. -/
def updateAssetEntry (acc : AppState) (entry : String × Asset)
    (fetch : String → Option PriceData) (now : ℤ) : AppState :=
  match fetch entry.2.ticker with
  | none => acc
  | some priceData =>
    let asset := updateAssetPrice entry.2 priceData now
    { acc with
      assets := mapSet acc.assets asset.ticker asset
      priceHistory :=
        appendPricePoint acc.priceHistory asset.ticker priceData.price now }

/-- The whole updateAllPrices loop as a fold of the per-asset body over the
tracked assets. -/
def updateAllPrices (st : AppState) (fetch : String → Option PriceData)
    (now : ℤ) : AppState :=
  st.assets.foldl (fun acc entry => updateAssetEntry acc entry fetch now) st

/-- checkAlarms of src/app.js over the whole alarm map: each alarm is
evaluated against the asset and history maps, which the loop never mutates,
and only its own map entry is replaced; the emitted events are collected in
iteration order. -/
def checkAlarms (st : AppState) (now : ℤ) : AppState × List TriggerEvent :=
  let results :=
    st.alarms.map (fun e =>
      (e.1, checkAlarmsStep e.2 (mapGet st.assets) (mapGet st.priceHistory) now))
  ({ st with
      alarms := results.foldl (fun m r => mapSet m r.1 r.2.1) st.alarms },
    results.filterMap (fun r => r.2.2))

/-- One monitoring tick of startMonitoring in src/app.js: update all prices,
then check all alarms against the just-updated state. -/
def tick (st : AppState) (fetch : String → Option PriceData) (now : ℤ) :
    AppState × List TriggerEvent :=
  let st1 := updateAllPrices st fetch now
  checkAlarms st1 now

/-- The per-alarm state change of rehydrateResetTimers in src/app.js.  Both
source guards test the resetUntil field for truthiness first, so an absent
deadline and a deadline equal to 0 take neither branch; a truthy future
deadline only re-registers the countdown interval and leaves the alarm
fields unchanged, a truthy elapsed deadline clears the cooldown fields and
the triggered latch. -/
def rehydrateAlarm (alarm : Alarm) (now : ℤ) : Alarm :=
  match alarm.resetUntil with
  | none => alarm
  | some r =>
    if r ≠ 0 ∧ now < r then alarm
    else if r ≠ 0 ∧ r ≤ now then
      { alarm with resetUntil := none, resetting := false, triggered := false }
    else alarm

/-- rehydrateResetTimers over the whole alarm map. -/
def rehydrateResetTimers (alarms : List (String × Alarm)) (now : ℤ) :
    List (String × Alarm) :=
  alarms.map (fun e => (e.1, rehydrateAlarm e.2 now))

/-- One upstream exchange as seen by fetchPrice of src/app.js: an HTTP 429
throttle, a JSON body carrying the coin price (with an optional 24h-change
field defaulted to 0), a JSON body missing the coin id, or a thrown network
error. -/
inductive UpstreamResponse where
  | status429
  | priceOk (price : ℚ) (change24h : Option ℚ)
  | missing
  | networkError
deriving DecidableEq

/-- What fetchPrice eventually returns to its caller: a price record, or
the null it returns for a missing coin id or a thrown error. -/
inductive FetchResult where
  | priceData (price change24h : ℚ)
  | nullResult
deriving DecidableEq

/-- Fuel-indexed unfolding of the recursive fetchPrice of src/app.js over a
stream of upstream responses: on a 429 the source waits 60 seconds and calls
itself again on the rest of the stream, on data it returns the price record,
and on a missing id or a thrown error it returns null.  A none value means
the call has not returned within the given number of upstream exchanges and
is still retrying. -/
def fetchPriceRun (responses : ℕ → UpstreamResponse) :
    ℕ → Option FetchResult
  | 0 => none
  | n + 1 =>
    match responses 0 with
    | .status429 => fetchPriceRun (fun k => responses (k + 1)) n
    | .priceOk p c => some (.priceData p (c.getD 0))
    | .missing => some .nullResult
    | .networkError => some .nullResult

/-- A concrete already-latched target alarm, used as witness data. -/
def latchedAlarm : Alarm :=
  { id := "a1", ticker := "A", kind := AlarmKind.target 1 Direction.up,
    triggered := true, createdAt := 0 }

/-- A concrete triggered alarm whose stored cooldown deadline is the falsy
timestamp 0, used as counterexample data. -/
def zeroDeadlineAlarm : Alarm :=
  { id := "a2", ticker := "A", kind := AlarmKind.target 1 Direction.up,
    triggered := true, createdAt := 0, resetUntil := some 0 }

/-- A concrete triggered target alarm in cooldown until time 500, used as
witness data. -/
def cooldownAlarm : Alarm :=
  { id := "a3", ticker := "A", kind := AlarmKind.target 1 Direction.up,
    triggered := true, createdAt := 0, resetUntil := some 500,
    resetting := true }

/-- A concrete tracked asset with ticker A, used as witness data. -/
def sampleAssetA : Asset :=
  { ticker := "A", price := 1, change24h := 0, maxPrice := 1, minPrice := 1,
    lastUpdate := 0 }

/-- A concrete tracked asset with ticker B, used as witness data. -/
def sampleAssetB : Asset :=
  { ticker := "B", price := 1, change24h := 0, maxPrice := 1, minPrice := 1,
    lastUpdate := 0 }

/-- A concrete untriggered target alarm on asset B, used as witness data. -/
def sampleAlarmB : Alarm :=
  { id := "b1", ticker := "B", kind := AlarmKind.target 2 Direction.up,
    triggered := false, createdAt := 0 }

/-- A concrete application state tracking assets A and B, each with one
history point, and one alarm on B, used as witness data. -/
def sampleStateTwoAssets : AppState :=
  { assets := [("A", sampleAssetA), ("B", sampleAssetB)]
    priceHistory := [("A", [{ price := 1, timestamp := 0 }]),
      ("B", [{ price := 1, timestamp := 0 }])]
    alarms := [("b1", sampleAlarmB)] }

/-- A concrete fetch outcome map that fails for asset A and succeeds for
asset B, used as witness data. -/
def fetchFailA : String → Option PriceData :=
  fun t => if t = "B" then some { price := 2, change24h := 1 } else none

/-! Helper lemmas about the association-list map operations. -/

theorem mapGet_mapSet_self {α : Type} (m : List (String × α)) (k : String)
    (v : α) : mapGet (mapSet m k v) k = some v := by
  induction m with
  | nil => simp [mapGet, mapSet, List.find?]
  | cons p rest ih =>
    by_cases h : p.1 = k
    · simp [mapSet, h, mapGet, List.find?]
    · simpa [mapSet, h, mapGet, List.find?] using ih

theorem mapGet_mapSet_ne {α : Type} (m : List (String × α)) (k k' : String)
    (v : α) (h : k' ≠ k) : mapGet (mapSet m k v) k' = mapGet m k' := by
  have h1 : decide (k = k') = false := decide_eq_false (Ne.symm h)
  induction m with
  | nil => simp [mapGet, mapSet, List.find?, h1]
  | cons p rest ih =>
    by_cases hp : p.1 = k
    · have h2 : decide (p.1 = k') = false :=
        decide_eq_false (by rw [hp]; exact Ne.symm h)
      simp [mapGet, mapSet, if_pos hp, List.find?, h1, h2]
    · by_cases hq : p.1 = k'
      · have h3 : decide (p.1 = k') = true := decide_eq_true hq
        simp [mapGet, mapSet, if_neg hp, List.find?, h3]
      · have h4 : decide (p.1 = k') = false := decide_eq_false hq
        simpa [mapGet, mapSet, if_neg hp, List.find?, h4] using ih

theorem mapSet_of_get_none {α : Type} (m : List (String × α)) (k : String)
    (v : α) (h : mapGet m k = none) : mapSet m k v = m ++ [(k, v)] := by
  induction m with
  | nil => simp [mapSet]
  | cons p rest ih =>
    by_cases hp : p.1 = k
    · simp [mapGet, List.find?, hp] at h
    · simp only [mapGet, List.find?, hp] at h ih ⊢
      simp only [mapSet, if_neg hp, List.cons_append, List.cons.injEq, true_and]
      exact ih (by simpa [mapGet] using h)

theorem mem_mapSet {α : Type} (m : List (String × α)) (k : String) (v : α)
    (q : String × α) (hq : q ∈ mapSet m k v) : q ∈ m ∨ q = (k, v) := by
  induction m with
  | nil => simpa [mapSet] using hq
  | cons p rest ih =>
    by_cases hp : p.1 = k
    · simp only [mapSet, if_pos hp, List.mem_cons] at hq
      rcases hq with hq | hq
      · right; exact hq
      · left; exact List.mem_cons_of_mem _ hq
    · simp only [mapSet, if_neg hp, List.mem_cons] at hq
      rcases hq with hq | hq
      · left; simp [hq]
      · rcases ih hq with hh | hh
        · left; exact List.mem_cons_of_mem _ hh
        · right; exact hh

theorem mapGet_appendPricePoint_self (store : List (String × List PricePoint))
    (k : String) (price : ℚ) (now : ℤ) :
    mapGet (appendPricePoint store k price now) k =
      some ((((mapGet store k).getD []) ++
          [({ price := price, timestamp := now } : PricePoint)]).filter
        (fun h => decide (now - 24 * 60 * 60 * 1000 < h.timestamp))) := by
  unfold appendPricePoint
  exact mapGet_mapSet_self _ _ _

theorem mapGet_appendPricePoint_ne (store : List (String × List PricePoint))
    (k t : String) (price : ℚ) (now : ℤ) (h : t ≠ k) :
    mapGet (appendPricePoint store k price now) t = mapGet store t := by
  unfold appendPricePoint
  exact mapGet_mapSet_ne _ _ _ _ h

/-- C1: for a Target alarm evaluated with at least two history points, with
eps the tolerance, prev the second-to-last history price and curr the
current asset price, direction up fires iff prev is below the target and
curr reaches it within eps, direction down fires iff prev is above the
target and curr reaches it within eps, direction any fires iff one of the
two holds; and for direction up, a current price more than eps below the
target never fires, whatever the history length. -/
theorem target_alarm_crossing_spec (targetPrice : ℚ) (asset : Asset)
    (history : List PricePoint) :
    (2 ≤ history.length →
      ((checkTargetAlarm targetPrice Direction.up asset history = true ↔
          (history.getD (history.length - 2) { price := 0, timestamp := 0 }).price <
              targetPrice ∧
            targetPrice ≤ asset.price + eps targetPrice) ∧
        (checkTargetAlarm targetPrice Direction.down asset history = true ↔
          targetPrice <
              (history.getD (history.length - 2) { price := 0, timestamp := 0 }).price ∧
            asset.price - eps targetPrice ≤ targetPrice) ∧
        (checkTargetAlarm targetPrice Direction.any asset history = true ↔
          (((history.getD (history.length - 2) { price := 0, timestamp := 0 }).price <
              targetPrice ∧
              targetPrice ≤ asset.price + eps targetPrice) ∨
            (targetPrice <
              (history.getD (history.length - 2) { price := 0, timestamp := 0 }).price ∧
              asset.price - eps targetPrice ≤ targetPrice))))) ∧
    (asset.price < targetPrice - eps targetPrice →
      checkTargetAlarm targetPrice Direction.up asset history = false) := by
  constructor
  · intro h2
    have hlt : ¬ history.length < 2 := by omega
    refine ⟨?_, ?_, ?_⟩ <;> simp [checkTargetAlarm, hlt]
  · intro hlow
    by_cases h : history.length < 2
    · simp only [checkTargetAlarm, if_pos h, decide_eq_false_iff_not]
      intro hc
      linarith
    · simp only [checkTargetAlarm, if_neg h, decide_eq_false_iff_not, not_and]
      intro _ hc
      linarith

/-- Witness for C1 at the concrete scenario of the specification: target
50000, direction up, history 49000 then 49500, current price 50100 fires;
and with current price 40000 the up alarm does not fire. -/
theorem target_alarm_crossing_spec_witness :
    checkTargetAlarm 50000 Direction.up
      { ticker := "BTCUSDT", price := 50100, change24h := 0, maxPrice := 50100,
        minPrice := 49000, lastUpdate := 0 }
      [{ price := 49000, timestamp := 0 }, { price := 49500, timestamp := 1 }] = true ∧
    checkTargetAlarm 50000 Direction.up
      { ticker := "BTCUSDT", price := 40000, change24h := 0, maxPrice := 50100,
        minPrice := 40000, lastUpdate := 0 }
      [{ price := 49000, timestamp := 0 }, { price := 49500, timestamp := 1 }] = false := by
  have hepsLow : (0 : ℚ) ≤ eps 50000 :=
    le_trans (by norm_num) (le_max_left _ _)
  have hepsAbs : |(50000 : ℚ)| = 50000 := abs_of_nonneg (by norm_num)
  have hepsHigh : eps 50000 ≤ 1 := by
    refine max_le (by norm_num) ?_
    rw [hepsAbs]
    norm_num
  constructor
  · refine ((target_alarm_crossing_spec 50000
      { ticker := "BTCUSDT", price := 50100, change24h := 0, maxPrice := 50100,
        minPrice := 49000, lastUpdate := 0 }
      [{ price := 49000, timestamp := 0 }, { price := 49500, timestamp := 1 }]).1
      (by decide)).1.mpr ⟨by decide, ?_⟩
    show (50000 : ℚ) ≤ 50100 + eps 50000
    linarith
  · refine (target_alarm_crossing_spec 50000
      { ticker := "BTCUSDT", price := 40000, change24h := 0, maxPrice := 50100,
        minPrice := 40000, lastUpdate := 0 }
      [{ price := 49000, timestamp := 0 }, { price := 49500, timestamp := 1 }]).2 ?_
    show (40000 : ℚ) < 50000 - eps 50000
    linarith

/-- C2: a non-since-start alarm fires at most once before an explicit
restart or removal: a firing evaluation step latches the triggered flag,
and once the flag is set every later evaluation step leaves the alarm
unchanged and emits no TriggerEvent, over any sequence of ticks with any
asset data. -/
theorem alarm_latch_no_reemit :
    (∀ (alarm : Alarm) (getAsset : String → Option Asset)
        (getHistory : String → Option (List PricePoint)) (now : ℤ),
      isSinceStartAlarm alarm = false →
      ((checkAlarmsStep alarm getAsset getHistory now).2).isSome = true →
      ((checkAlarmsStep alarm getAsset getHistory now).1).triggered = true) ∧
    (∀ alarm : Alarm, alarm.triggered = true →
      ∀ ticks, evalSteps alarm ticks = (alarm, [])) := by
  constructor
  · intro alarm getAsset getHistory now hss hev
    by_cases ht : alarm.triggered
    · simp [checkAlarmsStep, ht]
    · rcases hA : getAsset alarm.ticker with _ | asset
      · simp [checkAlarmsStep, ht, hA] at hev
      · rcases hk : alarm.kind with ⟨targetPrice, direction⟩ |
          ⟨percentage, extremeType⟩ | ⟨percentage, direction, timeValue, timeUnit⟩
        · by_cases hc : checkTargetAlarm targetPrice direction asset
              ((getHistory asset.ticker).getD []) = true
          · simp [checkAlarmsStep, ht, hA, hk, hc]
          · simp [checkAlarmsStep, ht, hA, hk,
              Bool.not_eq_true _ ▸ hc] at hev
        · by_cases hc : checkExtremeAlarm percentage extremeType asset = true
          · simp [checkAlarmsStep, ht, hA, hk, hc]
          · simp [checkAlarmsStep, ht, hA, hk,
              Bool.not_eq_true _ ▸ hc] at hev
        · have hnss : ¬ timeUnit = TimeUnit.since_start := by
            intro hcontra
            rw [isSinceStartAlarm, hk, hcontra] at hss
            simp at hss
          rcases hc : checkTimeframeAlarm percentage direction timeValue timeUnit
              alarm.timeframeMinutes alarm.lastResetTime alarm.createdAt asset
              ((getHistory asset.ticker).getD []) now with _ | pm
          · simp [checkAlarmsStep, ht, hA, hk, hc] at hev
          · simp [checkAlarmsStep, ht, hA, hk, hc, hnss]
  · intro alarm ht ticks
    induction ticks with
    | nil => rfl
    | cons c cs ih => simp [evalSteps, checkAlarmsStep, ht, ih]

/-- Witness for C2: a latched target alarm evaluated over two further ticks
stays unchanged and emits nothing. -/
theorem alarm_latch_no_reemit_witness :
    evalSteps latchedAlarm
      [(fun _ => none, fun _ => none, 5), (fun _ => none, fun _ => none, 6)] =
      (latchedAlarm, []) :=
  alarm_latch_no_reemit.2 latchedAlarm rfl
    [(fun _ => none, fun _ => none, 5), (fun _ => none, fun _ => none, 6)]

/-- C6: an Extreme alarm with extremeType max fires iff the percent drop
from the recorded maximum reaches the configured percentage, with event
direction down, and symmetrically for min with direction up; and firing is
antitone in the percentage parameter: on the same asset, raising the
threshold never turns a non-fire into a fire. -/
theorem extreme_alarm_spec (percentage : ℚ) (asset : Asset) :
    (checkExtremeAlarm percentage ExtremeType.max asset = true ↔
      percentage ≤ (asset.maxPrice - asset.price) / asset.maxPrice * 100) ∧
    (checkExtremeAlarm percentage ExtremeType.min asset = true ↔
      percentage ≤ (asset.price - asset.minPrice) / asset.minPrice * 100) ∧
    (∀ q : ℚ, percentage ≤ q → ∀ extremeType,
      checkExtremeAlarm percentage extremeType asset = false →
      checkExtremeAlarm q extremeType asset = false) ∧
    (∀ (alarm : Alarm) (getAsset : String → Option Asset)
        (getHistory : String → Option (List PricePoint)) (now : ℤ)
        (extremeType : ExtremeType) (ev : TriggerEvent),
      alarm.kind = AlarmKind.extreme percentage extremeType →
      (checkAlarmsStep alarm getAsset getHistory now).2 = some ev →
      (extremeType = ExtremeType.max → ev.direction = Direction.down) ∧
        (extremeType = ExtremeType.min → ev.direction = Direction.up)) := by
  refine ⟨by simp [checkExtremeAlarm], by simp [checkExtremeAlarm], ?_, ?_⟩
  · intro q hq extremeType hfired
    cases extremeType <;>
      · simp only [checkExtremeAlarm, decide_eq_false_iff_not] at hfired ⊢
        intro hc
        exact hfired (le_trans hq hc)
  · intro alarm getAsset getHistory now extremeType ev hk hev
    by_cases ht : alarm.triggered
    · simp [checkAlarmsStep, ht] at hev
    · rcases hA : getAsset alarm.ticker with _ | asset'
      · simp [checkAlarmsStep, ht, hA] at hev
      · by_cases hc : checkExtremeAlarm percentage extremeType asset' = true
        · cases extremeType <;>
          · simp [checkAlarmsStep, ht, hA, hk, hc] at hev
            simp [← hev]
        · simp [checkAlarmsStep, ht, hA, hk, Bool.not_eq_true _ ▸ hc] at hev

/-- Witness for C6 at the concrete scenario of the specification: maximum
60000, current price 53000, threshold 10 percent fires, while a 50 percent
threshold does not fire and raising it further to 60 still does not. -/
theorem extreme_alarm_spec_witness :
    checkExtremeAlarm 10 ExtremeType.max
      { ticker := "B", price := 53000, change24h := 0, maxPrice := 60000,
        minPrice := 1, lastUpdate := 0 } = true ∧
    checkExtremeAlarm 60 ExtremeType.max
      { ticker := "B", price := 53000, change24h := 0, maxPrice := 60000,
        minPrice := 1, lastUpdate := 0 } = false := by
  constructor
  · exact (extreme_alarm_spec 10
      { ticker := "B", price := 53000, change24h := 0, maxPrice := 60000,
        minPrice := 1, lastUpdate := 0 }).1.mpr (by norm_num)
  · exact (extreme_alarm_spec 50
      { ticker := "B", price := 53000, change24h := 0, maxPrice := 60000,
        minPrice := 1, lastUpdate := 0 }).2.2.1 60 (by norm_num)
      ExtremeType.max
      (by
        have := (extreme_alarm_spec 50
          { ticker := "B", price := 53000, change24h := 0, maxPrice := 60000,
            minPrice := 1, lastUpdate := 0 }).1
        rw [Bool.eq_false_iff]
        intro hc
        have h2 := this.mp hc
        norm_num at h2)

/-- C3 (amended): after the append step for a ticker, the stored history of
that ticker is exactly the old history (an unknown ticker reading as empty)
with the new point stamped now pushed at the end, keeping precisely the
points with timestamp strictly greater than now minus 24 hours, so a point
stamped exactly at the window edge is pruned; the appended point itself
always survives, so the history is never empty afterwards; other tickers
are untouched; and for a ticker unknown to the store a fresh entry holding
just the appended point is created rather than the call being a no-op. -/
theorem append_prune_spec (store : List (String × List PricePoint))
    (ticker : String) (price : ℚ) (now : ℤ) :
    mapGet (appendPricePoint store ticker price now) ticker =
      some ((((mapGet store ticker).getD []) ++
          [({ price := price, timestamp := now } : PricePoint)]).filter
        (fun h => decide (now - 24 * 60 * 60 * 1000 < h.timestamp))) ∧
    (∀ q : PricePoint,
      q ∈ (((mapGet store ticker).getD []) ++
          [({ price := price, timestamp := now } : PricePoint)]).filter
        (fun h => decide (now - 24 * 60 * 60 * 1000 < h.timestamp)) ↔
      ((q ∈ ((mapGet store ticker).getD []) ∨
          q = ({ price := price, timestamp := now } : PricePoint)) ∧
        now - 24 * 60 * 60 * 1000 < q.timestamp)) ∧
    ({ price := price, timestamp := now } : PricePoint) ∈
      (((mapGet store ticker).getD []) ++
          [({ price := price, timestamp := now } : PricePoint)]).filter
        (fun h => decide (now - 24 * 60 * 60 * 1000 < h.timestamp)) ∧
    (∀ t, t ≠ ticker →
      mapGet (appendPricePoint store ticker price now) t = mapGet store t) ∧
    (mapGet store ticker = none →
      appendPricePoint store ticker price now =
        store ++ [(ticker, [({ price := price, timestamp := now } : PricePoint)])]) := by
  have hmem : ∀ q : PricePoint,
      q ∈ (((mapGet store ticker).getD []) ++
          [({ price := price, timestamp := now } : PricePoint)]).filter
        (fun h => decide (now - 24 * 60 * 60 * 1000 < h.timestamp)) ↔
      ((q ∈ ((mapGet store ticker).getD []) ∨
          q = ({ price := price, timestamp := now } : PricePoint)) ∧
        now - 24 * 60 * 60 * 1000 < q.timestamp) := by
    intro q
    constructor
    · intro hq
      rcases List.mem_filter.mp hq with ⟨hin, hts⟩
      rcases List.mem_append.mp hin with hin | hin
      · exact ⟨Or.inl hin, by simpa using hts⟩
      · exact ⟨Or.inr (List.mem_singleton.mp hin), by simpa using hts⟩
    · rintro ⟨hin, hts⟩
      refine List.mem_filter.mpr ⟨?_, by simpa using hts⟩
      rcases hin with hin | hin
      · exact List.mem_append.mpr (Or.inl hin)
      · exact List.mem_append.mpr (Or.inr (by simp [hin]))
  refine ⟨mapGet_appendPricePoint_self store ticker price now, hmem, ?_, ?_, ?_⟩
  · refine (hmem _).mpr ⟨Or.inr rfl, ?_⟩
    show now - 24 * 60 * 60 * 1000 < now
    omega
  · intro t ht
    exact mapGet_appendPricePoint_ne store ticker t price now ht
  · intro h
    unfold appendPricePoint
    rw [h]
    have hc : decide (now - 24 * 60 * 60 * 1000 <
        ({ price := price, timestamp := now } : PricePoint).timestamp) = true :=
      decide_eq_true (by show now - 24 * 60 * 60 * 1000 < now; omega)
    simp only [Option.getD_none, List.nil_append, List.filter, hc]
    exact mapSet_of_get_none store ticker _ h

/-- C3 counterexample: a point stamped exactly now minus 24 hours is pruned
by the code although the claim keeps every point with timestamp not below
now minus 24 hours, and an append for a ticker unknown to the store creates
an entry instead of leaving the store unchanged. -/
theorem append_prune_claim_counterexample :
    mapGet (appendPricePoint [("A", [{ price := 1, timestamp := 86400000 }])]
        "A" 2 172800000) "A" =
      some [({ price := 2, timestamp := 172800000 } : PricePoint)] ∧
    ({ price := 1, timestamp := 86400000 } : PricePoint) ∉
      ((mapGet (appendPricePoint [("A", [{ price := 1, timestamp := 86400000 }])]
        "A" 2 172800000) "A").getD []) ∧
    appendPricePoint [] "B" 5 100 = [("B", [{ price := 5, timestamp := 100 }])] := by
  refine ⟨by decide, by decide, by decide⟩

/-- Witness for C3 at concrete stores: a foreign ticker is untouched, and
appending for an unknown ticker appends a fresh entry. -/
theorem append_prune_spec_witness :
    mapGet (appendPricePoint [("A", [{ price := 1, timestamp := 86400000 }])]
        "A" 2 172800000) "B" =
      mapGet [("A", [({ price := 1, timestamp := 86400000 } : PricePoint)])] "B" ∧
    appendPricePoint [] "B" 5 100 =
      [] ++ [("B", [({ price := 5, timestamp := 100 } : PricePoint)])] := by
  constructor
  · exact (append_prune_spec [("A", [{ price := 1, timestamp := 86400000 }])]
      "A" 2 172800000).2.2.2.1 "B" (by decide)
  · exact (append_prune_spec [] "B" 5 100).2.2.2.2 (by decide)

/-- C4: with every upstream exchange answering HTTP 429, the fetchPrice
recursion never returns within any number of exchanges: there is no bound
of attempts after which a RateLimited failure is surfaced to the caller;
the code retries with its fixed 60 second wait forever. -/
theorem fetchPrice_unbounded_retry (n : ℕ) :
    fetchPriceRun (fun _ => UpstreamResponse.status429) n = none := by
  induction n with
  | zero => rfl
  | succ k ih => exact ih

/-- C9 (amended): rehydration preserves an alarm with a nonzero future
cooldown deadline unchanged, so the stored deadline is never replaced by a
fresh one; an alarm with a nonzero already-elapsed deadline has its
cooldown fields cleared and its triggered latch reset; an alarm with no
stored deadline, or with the falsy stored deadline 0, is left unchanged. -/
theorem rehydrate_spec (alarm : Alarm) (now r : ℤ) :
    (alarm.resetUntil = some r → now < r → rehydrateAlarm alarm now = alarm) ∧
    (alarm.resetUntil = some r → r ≠ 0 → r ≤ now →
      rehydrateAlarm alarm now =
        { alarm with resetUntil := none, resetting := false, triggered := false }) ∧
    (alarm.resetUntil = none → rehydrateAlarm alarm now = alarm) ∧
    (alarm.resetUntil = some 0 → rehydrateAlarm alarm now = alarm) := by
  refine ⟨?_, ?_, ?_, ?_⟩
  · intro h hfut
    simp only [rehydrateAlarm, h]
    split_ifs with h1 h2 <;> first | rfl | (exfalso; omega)
  · intro h hz hel
    simp only [rehydrateAlarm, h]
    split_ifs with h1 h2 <;> first | rfl | (exfalso; omega)
  · intro h
    simp only [rehydrateAlarm, h]
  · intro h
    simp only [rehydrateAlarm, h]
    split_ifs with h1 h2 <;> first | rfl | (exfalso; omega)

/-- C9 counterexample: an alarm loaded with the already-elapsed deadline
resetUntil equal to 0 does not transition to Active on rehydration: both
source guards test resetUntil for truthiness, 0 is falsy, so the alarm
keeps its triggered latch and its stored deadline. -/
theorem rehydrate_claim_counterexample :
    (rehydrateAlarm zeroDeadlineAlarm 1000).triggered = true ∧
    (rehydrateAlarm zeroDeadlineAlarm 1000).resetUntil = some 0 := by
  refine ⟨by decide, by decide⟩

/-- Witness for C9: a cooldown deadline of 500 is preserved at time 100 and
cleared, with the triggered latch reset, at time 1000. -/
theorem rehydrate_spec_witness :
    rehydrateAlarm cooldownAlarm 100 = cooldownAlarm ∧
    rehydrateAlarm cooldownAlarm 1000 =
      { cooldownAlarm with
        resetUntil := none, resetting := false, triggered := false } := by
  constructor
  · exact (rehydrate_spec cooldownAlarm 100 500).1 rfl (by omega)
  · exact (rehydrate_spec cooldownAlarm 1000 500).2.1 rfl (by omega) (by omega)

/-- C8: a Timeframe alarm whose window holds no history point gets no
verdict: the evaluator returns none, and the evaluation step leaves the
alarm unchanged and emits no TriggerEvent, so it is evaluated again on the
next tick. -/
theorem timeframe_empty_window_no_verdict :
    (∀ (percentage : ℚ) (direction : Direction) (timeValue : Option ℤ)
        (timeUnit : TimeUnit) (timeframeMinutes lastResetTime : Option ℤ)
        (createdAt : ℤ) (asset : Asset) (history : List PricePoint)
        (currentTime : ℤ),
      relevantHistory history (timeframeStartTime timeValue timeUnit
        timeframeMinutes lastResetTime createdAt currentTime) = [] →
      checkTimeframeAlarm percentage direction timeValue timeUnit
        timeframeMinutes lastResetTime createdAt asset history currentTime =
        none) ∧
    (∀ (alarm : Alarm) (getAsset : String → Option Asset)
        (getHistory : String → Option (List PricePoint)) (now : ℤ)
        (percentage : ℚ) (direction : Direction) (timeValue : Option ℤ)
        (timeUnit : TimeUnit) (asset : Asset),
      alarm.kind = AlarmKind.timeframe percentage direction timeValue timeUnit →
      getAsset alarm.ticker = some asset →
      relevantHistory ((getHistory asset.ticker).getD [])
        (timeframeStartTime timeValue timeUnit alarm.timeframeMinutes
          alarm.lastResetTime alarm.createdAt now) = [] →
      checkAlarmsStep alarm getAsset getHistory now = (alarm, none)) := by
  have part1 : ∀ (percentage : ℚ) (direction : Direction) (timeValue : Option ℤ)
      (timeUnit : TimeUnit) (timeframeMinutes lastResetTime : Option ℤ)
      (createdAt : ℤ) (asset : Asset) (history : List PricePoint)
      (currentTime : ℤ),
      relevantHistory history (timeframeStartTime timeValue timeUnit
        timeframeMinutes lastResetTime createdAt currentTime) = [] →
      checkTimeframeAlarm percentage direction timeValue timeUnit
        timeframeMinutes lastResetTime createdAt asset history currentTime =
        none := by
    intro percentage direction timeValue timeUnit timeframeMinutes lastResetTime
      createdAt asset history currentTime hrel
    unfold checkTimeframeAlarm
    by_cases h : history.length < 2
    · rw [if_pos h]
    · rw [if_neg h]
      simp only [hrel]
  refine ⟨part1, ?_⟩
  intro alarm getAsset getHistory now percentage direction timeValue timeUnit
    asset hk hA hrel
  by_cases ht : alarm.triggered
  · simp [checkAlarmsStep, ht]
  · simp [checkAlarmsStep, ht, hA, hk,
      part1 percentage direction timeValue timeUnit alarm.timeframeMinutes
        alarm.lastResetTime alarm.createdAt asset
        ((getHistory asset.ticker).getD []) now hrel]

/-- Witness for C8: a one-minute-window alarm evaluated long after its two
history points gets no verdict and its step is a no-op. -/
theorem timeframe_empty_window_witness :
    checkTimeframeAlarm 5 Direction.any (some 1) TimeUnit.minutes none none 0
      { ticker := "A", price := 1, change24h := 0, maxPrice := 1,
        minPrice := 1, lastUpdate := 0 }
      [{ price := 1, timestamp := 0 }, { price := 1, timestamp := 1 }]
      2000000000 = none := by
  exact timeframe_empty_window_no_verdict.1 5 Direction.any (some 1)
    TimeUnit.minutes none none 0
    { ticker := "A", price := 1, change24h := 0, maxPrice := 1,
      minPrice := 1, lastUpdate := 0 }
    [{ price := 1, timestamp := 0 }, { price := 1, timestamp := 1 }]
    2000000000 (by decide)

/-- C10: a Timeframe alarm whose asset has fewer than two stored history
points gets no verdict even when the window is non-empty, so it can never
fire on the very first price sample: the evaluator returns none and the
evaluation step leaves the alarm unchanged and emits nothing. -/
theorem timeframe_cold_start_no_verdict :
    (∀ (percentage : ℚ) (direction : Direction) (timeValue : Option ℤ)
        (timeUnit : TimeUnit) (timeframeMinutes lastResetTime : Option ℤ)
        (createdAt : ℤ) (asset : Asset) (history : List PricePoint)
        (currentTime : ℤ),
      history.length < 2 →
      checkTimeframeAlarm percentage direction timeValue timeUnit
        timeframeMinutes lastResetTime createdAt asset history currentTime =
        none) ∧
    (∀ (alarm : Alarm) (getAsset : String → Option Asset)
        (getHistory : String → Option (List PricePoint)) (now : ℤ)
        (percentage : ℚ) (direction : Direction) (timeValue : Option ℤ)
        (timeUnit : TimeUnit) (asset : Asset),
      alarm.kind = AlarmKind.timeframe percentage direction timeValue timeUnit →
      getAsset alarm.ticker = some asset →
      ((getHistory asset.ticker).getD []).length < 2 →
      checkAlarmsStep alarm getAsset getHistory now = (alarm, none)) := by
  have part1 : ∀ (percentage : ℚ) (direction : Direction) (timeValue : Option ℤ)
      (timeUnit : TimeUnit) (timeframeMinutes lastResetTime : Option ℤ)
      (createdAt : ℤ) (asset : Asset) (history : List PricePoint)
      (currentTime : ℤ),
      history.length < 2 →
      checkTimeframeAlarm percentage direction timeValue timeUnit
        timeframeMinutes lastResetTime createdAt asset history currentTime =
        none := by
    intro percentage direction timeValue timeUnit timeframeMinutes lastResetTime
      createdAt asset history currentTime hshort
    unfold checkTimeframeAlarm
    rw [if_pos hshort]
  refine ⟨part1, ?_⟩
  intro alarm getAsset getHistory now percentage direction timeValue timeUnit
    asset hk hA hshort
  by_cases ht : alarm.triggered
  · simp [checkAlarmsStep, ht]
  · simp [checkAlarmsStep, ht, hA, hk,
      part1 percentage direction timeValue timeUnit alarm.timeframeMinutes
        alarm.lastResetTime alarm.createdAt asset
        ((getHistory asset.ticker).getD []) now hshort]

/-- Witness for C10: a since-start alarm with a single history point inside
its window still gets no verdict. -/
theorem timeframe_cold_start_witness :
    checkTimeframeAlarm 5 Direction.any none TimeUnit.since_start none
      (some 10) 0
      { ticker := "A", price := 2, change24h := 0, maxPrice := 2,
        minPrice := 2, lastUpdate := 50 }
      [{ price := 1, timestamp := 50 }] 60 = none := by
  exact timeframe_cold_start_no_verdict.1 5 Direction.any none
    TimeUnit.since_start none (some 10) 0
    { ticker := "A", price := 2, change24h := 0, maxPrice := 2,
      minPrice := 2, lastUpdate := 50 }
    [{ price := 1, timestamp := 50 }] 60 (by decide)

/-! Helper lemmas about the update fold of updateAllPrices. -/

theorem updateAllPrices_alarms (st : AppState)
    (fetch : String → Option PriceData) (now : ℤ) :
    (updateAllPrices st fetch now).alarms = st.alarms := by
  unfold updateAllPrices
  suffices hgen : ∀ (l : List (String × Asset)) (acc : AppState),
      (l.foldl (fun acc e => updateAssetEntry acc e fetch now) acc).alarms =
        acc.alarms from hgen st.assets st
  intro l
  induction l with
  | nil => intro acc; rfl
  | cons e rest ih =>
    intro acc
    rw [List.foldl_cons, ih]
    cases hf : fetch e.2.ticker <;> simp [updateAssetEntry, hf]

theorem updateAssetEntry_lookup_ne (acc : AppState) (e : String × Asset)
    (fetch : String → Option PriceData) (now : ℤ) (t : String)
    (hne : t ≠ e.2.ticker) :
    mapGet (updateAssetEntry acc e fetch now).assets t = mapGet acc.assets t ∧
    mapGet (updateAssetEntry acc e fetch now).priceHistory t =
      mapGet acc.priceHistory t := by
  cases hf : fetch e.2.ticker with
  | none => simp [updateAssetEntry, hf]
  | some pd =>
    have hT : (updateAssetPrice e.2 pd now).ticker = e.2.ticker := rfl
    constructor
    · simp only [updateAssetEntry, hf]
      rw [hT, mapGet_mapSet_ne _ _ _ _ hne]
    · simp only [updateAssetEntry, hf]
      rw [hT, mapGet_appendPricePoint_ne _ _ _ _ _ hne]

theorem updateAssetEntry_lookup_of_fetch_none (acc : AppState)
    (e : String × Asset) (fetch : String → Option PriceData) (now : ℤ)
    (t : String) (ht : fetch t = none) :
    mapGet (updateAssetEntry acc e fetch now).assets t = mapGet acc.assets t ∧
    mapGet (updateAssetEntry acc e fetch now).priceHistory t =
      mapGet acc.priceHistory t := by
  by_cases hne : t = e.2.ticker
  · have hf : fetch e.2.ticker = none := hne ▸ ht
    simp [updateAssetEntry, hf]
  · exact updateAssetEntry_lookup_ne acc e fetch now t hne

theorem foldUpdate_lookup_fetch_none (fetch : String → Option PriceData)
    (now : ℤ) (t : String) (ht : fetch t = none) :
    ∀ (l : List (String × Asset)) (acc : AppState),
      mapGet (l.foldl (fun acc e => updateAssetEntry acc e fetch now) acc).assets t =
        mapGet acc.assets t ∧
      mapGet (l.foldl (fun acc e => updateAssetEntry acc e fetch now) acc).priceHistory t =
        mapGet acc.priceHistory t := by
  intro l
  induction l with
  | nil => intro acc; exact ⟨rfl, rfl⟩
  | cons e rest ih =>
    intro acc
    rw [List.foldl_cons]
    rcases ih (updateAssetEntry acc e fetch now) with ⟨h1, h2⟩
    rcases updateAssetEntry_lookup_of_fetch_none acc e fetch now t ht with ⟨g1, g2⟩
    exact ⟨h1.trans g1, h2.trans g2⟩

theorem foldUpdate_lookup_notmem (fetch : String → Option PriceData)
    (now : ℤ) (t : String) :
    ∀ (l : List (String × Asset)), (∀ e ∈ l, t ≠ e.2.ticker) →
    ∀ (acc : AppState),
      mapGet (l.foldl (fun acc e => updateAssetEntry acc e fetch now) acc).assets t =
        mapGet acc.assets t ∧
      mapGet (l.foldl (fun acc e => updateAssetEntry acc e fetch now) acc).priceHistory t =
        mapGet acc.priceHistory t := by
  intro l
  induction l with
  | nil => intro _ acc; exact ⟨rfl, rfl⟩
  | cons e rest ih =>
    intro hne acc
    rw [List.foldl_cons]
    rcases ih (fun e' he' => hne e' (List.mem_cons_of_mem _ he'))
      (updateAssetEntry acc e fetch now) with ⟨h1, h2⟩
    rcases updateAssetEntry_lookup_ne acc e fetch now t
      (hne e (List.mem_cons_self _ _)) with ⟨g1, g2⟩
    exact ⟨h1.trans g1, h2.trans g2⟩

theorem foldUpdate_lookup_success (fetch : String → Option PriceData)
    (now : ℤ) :
    ∀ (l : List (String × Asset)), (l.map (fun e => e.2.ticker)).Nodup →
    ∀ p ∈ l, ∀ pd, fetch p.2.ticker = some pd →
    ∀ (acc : AppState),
      mapGet (l.foldl (fun acc e => updateAssetEntry acc e fetch now) acc).assets
          p.2.ticker =
        some (updateAssetPrice p.2 pd now) ∧
      mapGet (l.foldl (fun acc e => updateAssetEntry acc e fetch now) acc).priceHistory
          p.2.ticker =
        some ((((mapGet acc.priceHistory p.2.ticker).getD []) ++
          [({ price := pd.price, timestamp := now } : PricePoint)]).filter
          (fun h => decide (now - 24 * 60 * 60 * 1000 < h.timestamp))) := by
  intro l
  induction l with
  | nil => intro _ p hp; cases hp
  | cons e rest ih =>
    intro hnd p hp pd hpd acc
    rw [List.foldl_cons]
    rcases List.mem_cons.mp hp with hpe | hp'
    · subst hpe
      have hhead : p.2.ticker ∉ rest.map (fun e => e.2.ticker) :=
        (List.nodup_cons.mp hnd).1
      have hnotin : ∀ e' ∈ rest, p.2.ticker ≠ e'.2.ticker := by
        intro e' he' hcontra
        have hmm := List.mem_map_of_mem (fun e => e.2.ticker) he'
        exact hhead (by simpa [← hcontra] using hmm)
      rcases foldUpdate_lookup_notmem fetch now p.2.ticker rest hnotin
        (updateAssetEntry acc p fetch now) with ⟨h1, h2⟩
      have hT : (updateAssetPrice p.2 pd now).ticker = p.2.ticker := rfl
      constructor
      · rw [h1]
        simp only [updateAssetEntry, hpd]
        rw [hT, mapGet_mapSet_self]
      · rw [h2]
        simp only [updateAssetEntry, hpd]
        rw [hT, mapGet_appendPricePoint_self]
    · have hne : p.2.ticker ≠ e.2.ticker := by
        have hhead := (List.nodup_cons.mp hnd).1
        intro hcontra
        have hmm := List.mem_map_of_mem (fun e => e.2.ticker) hp'
        exact hhead (by simpa [hcontra] using hmm)
      rcases ih (List.nodup_cons.mp hnd).2 p hp' pd hpd
        (updateAssetEntry acc e fetch now) with ⟨h1, h2⟩
      refine ⟨h1, h2.trans ?_⟩
      rcases updateAssetEntry_lookup_ne acc e fetch now p.2.ticker hne with ⟨_, g2⟩
      rw [g2]

/-- C5: in one tick, an asset whose fetch fails keeps its record and its
price history exactly as they were, every asset whose fetch succeeds is
still updated, with its fields refreshed and its history appended and
pruned from its previous value, and the events the tick emits are exactly
the per-alarm evaluation results over the whole alarm map against the
just-updated state, so one failed fetch never aborts the tick. -/
theorem tick_isolates_fetch_failure (st : AppState)
    (fetch : String → Option PriceData) (now : ℤ)
    (hnd : (st.assets.map (fun e => e.2.ticker)).Nodup) :
    (∀ t, fetch t = none →
      mapGet (updateAllPrices st fetch now).assets t = mapGet st.assets t ∧
      mapGet (updateAllPrices st fetch now).priceHistory t =
        mapGet st.priceHistory t) ∧
    (∀ p ∈ st.assets, ∀ pd, fetch p.2.ticker = some pd →
      mapGet (updateAllPrices st fetch now).assets p.2.ticker =
        some (updateAssetPrice p.2 pd now) ∧
      mapGet (updateAllPrices st fetch now).priceHistory p.2.ticker =
        some ((((mapGet st.priceHistory p.2.ticker).getD []) ++
          [({ price := pd.price, timestamp := now } : PricePoint)]).filter
          (fun h => decide (now - 24 * 60 * 60 * 1000 < h.timestamp)))) ∧
    ((tick st fetch now).2 =
      st.alarms.filterMap (fun e =>
        (checkAlarmsStep e.2 (mapGet (updateAllPrices st fetch now).assets)
          (mapGet (updateAllPrices st fetch now).priceHistory) now).2)) := by
  refine ⟨?_, ?_, ?_⟩
  · intro t ht
    exact foldUpdate_lookup_fetch_none fetch now t ht st.assets st
  · intro p hp pd hpd
    exact foldUpdate_lookup_success fetch now st.assets hnd p hp pd hpd st
  · show (checkAlarms (updateAllPrices st fetch now) now).2 = _
    unfold checkAlarms
    simp only [updateAllPrices_alarms]
    rw [List.filterMap_map]
    rfl

/-- Witness for C5 on a two-asset state where the fetch for A fails and the
fetch for B succeeds: A keeps its lookup values, B is updated, and the tick
events are the evaluation results of the alarm map. -/
theorem tick_isolates_fetch_failure_witness :
    (mapGet (updateAllPrices sampleStateTwoAssets fetchFailA 10).assets "A" =
        mapGet sampleStateTwoAssets.assets "A" ∧
      mapGet (updateAllPrices sampleStateTwoAssets fetchFailA 10).priceHistory "A" =
        mapGet sampleStateTwoAssets.priceHistory "A") ∧
    mapGet (updateAllPrices sampleStateTwoAssets fetchFailA 10).assets "B" =
      some (updateAssetPrice sampleAssetB { price := 2, change24h := 1 } 10) ∧
    ((tick sampleStateTwoAssets fetchFailA 10).2 =
      sampleStateTwoAssets.alarms.filterMap (fun e =>
        (checkAlarmsStep e.2
          (mapGet (updateAllPrices sampleStateTwoAssets fetchFailA 10).assets)
          (mapGet (updateAllPrices sampleStateTwoAssets fetchFailA 10).priceHistory)
          10).2)) := by
  refine ⟨(tick_isolates_fetch_failure sampleStateTwoAssets fetchFailA 10
      (by decide)).1 "A" (by decide), ?_, ?_⟩
  · exact ((tick_isolates_fetch_failure sampleStateTwoAssets fetchFailA 10
      (by decide)).2.1 ("B", sampleAssetB) (by decide)
      { price := 2, change24h := 1 } (by decide)).1
  · exact (tick_isolates_fetch_failure sampleStateTwoAssets fetchFailA 10
      (by decide)).2.2

/-- Bounds established by one field update: the running extrema bracket the
new price and only widen. -/
theorem updateAssetPrice_bounds (a : Asset) (pd : PriceData) (now : ℤ) :
    (updateAssetPrice a pd now).minPrice ≤ (updateAssetPrice a pd now).price ∧
    (updateAssetPrice a pd now).price ≤ (updateAssetPrice a pd now).maxPrice ∧
    a.maxPrice ≤ (updateAssetPrice a pd now).maxPrice ∧
    (updateAssetPrice a pd now).minPrice ≤ a.minPrice := by
  refine ⟨?_, ?_, ?_, ?_⟩ <;>
    (simp only [updateAssetPrice]; split_ifs <;> linarith)

theorem foldUpdate_inv (fetch : String → Option PriceData) (now : ℤ) :
    ∀ (l : List (String × Asset)) (acc : AppState),
      (∀ p ∈ acc.assets, p.2.minPrice ≤ p.2.price ∧ p.2.price ≤ p.2.maxPrice) →
      ∀ p ∈ (l.foldl (fun acc e => updateAssetEntry acc e fetch now) acc).assets,
        p.2.minPrice ≤ p.2.price ∧ p.2.price ≤ p.2.maxPrice := by
  intro l
  induction l with
  | nil => intro acc hacc; exact hacc
  | cons e rest ih =>
    intro acc hacc
    rw [List.foldl_cons]
    refine ih _ ?_
    cases hf : fetch e.2.ticker with
    | none => simpa [updateAssetEntry, hf] using hacc
    | some pd =>
      intro p hp
      simp only [updateAssetEntry, hf] at hp
      rcases mem_mapSet _ _ _ p hp with hin | heq
      · exact hacc p hin
      · subst heq
        exact ⟨(updateAssetPrice_bounds e.2 pd now).1,
          (updateAssetPrice_bounds e.2 pd now).2.1⟩

/-- C7: a freshly added asset starts with price, maximum and minimum all
equal; one price update leaves the extrema bracketing the new price, never
shrinking them; and the bracketing invariant is preserved for every tracked
asset across a whole updateAllPrices pass. -/
theorem extrema_invariant :
    (∀ (ticker : String) (pd : PriceData) (now : ℤ),
      (newAsset ticker pd now).minPrice = (newAsset ticker pd now).price ∧
      (newAsset ticker pd now).maxPrice = (newAsset ticker pd now).price) ∧
    (∀ (a : Asset) (pd : PriceData) (now : ℤ),
      (updateAssetPrice a pd now).minPrice ≤ (updateAssetPrice a pd now).price ∧
      (updateAssetPrice a pd now).price ≤ (updateAssetPrice a pd now).maxPrice ∧
      a.maxPrice ≤ (updateAssetPrice a pd now).maxPrice ∧
      (updateAssetPrice a pd now).minPrice ≤ a.minPrice) ∧
    (∀ (st : AppState) (fetch : String → Option PriceData) (now : ℤ),
      (∀ p ∈ st.assets, p.2.minPrice ≤ p.2.price ∧ p.2.price ≤ p.2.maxPrice) →
      ∀ p ∈ (updateAllPrices st fetch now).assets,
        p.2.minPrice ≤ p.2.price ∧ p.2.price ≤ p.2.maxPrice) := by
  refine ⟨fun ticker pd now => ⟨rfl, rfl⟩, updateAssetPrice_bounds, ?_⟩
  intro st fetch now hinv
  exact foldUpdate_inv fetch now st.assets st hinv

/-- Witness for C7: after the sample tick update, the refreshed asset B
still satisfies the extrema bracketing invariant. -/
theorem extrema_invariant_witness :
    (("B", updateAssetPrice sampleAssetB { price := 2, change24h := 1 } 10) :
        String × Asset).2.minPrice ≤
      (("B", updateAssetPrice sampleAssetB { price := 2, change24h := 1 } 10) :
        String × Asset).2.price ∧
    (("B", updateAssetPrice sampleAssetB { price := 2, change24h := 1 } 10) :
        String × Asset).2.price ≤
      (("B", updateAssetPrice sampleAssetB { price := 2, change24h := 1 } 10) :
        String × Asset).2.maxPrice := by
  exact extrema_invariant.2.2 sampleStateTwoAssets fetchFailA 10 (by decide)
    ("B", updateAssetPrice sampleAssetB { price := 2, change24h := 1 } 10)
    (by decide)

end CryptoAlarm
